import Mathlib

/-!
Shallow embedding of the shelby-examples upload orchestrator:
the `useSubmitFileToChain` hook (dual-path transaction submitter),
the `FileUpload.uploadFile` sequencer, the `AccountBlobs` classifier
(`isExpired`, `currentBlobs`, `expiredBlobs`, account-change effect) and
the `sanitizeInput` filename sanitizer.  External collaborators (wallet,
chain client, storage client, erasure encoder) are modelled as oracles in
an environment record; every observable external call is recorded as an
event so ordering and call-count properties can be stated.
-/

namespace Shelby

abbrev Address := String

abbrev Hash := String

/-- Milliseconds-to-microseconds conversion used by both the upload sequencer
(`Date.now() * 1000 + duration`) and the classifier (`Date.now() * 1000`). -/
def msToMicros (ms : Int) : Int := ms * 1000

/-- `BlobMetadata` as consumed by `AccountBlobs` (read side of the listing). -/
structure BlobMetadata where
  name : String
  owner : Address
  expirationMicros : Int
  size : Int
deriving DecidableEq

/-- `isExpired` from AccountBlobs.tsx: `Date.now() * 1000 > expirationMicros`.
`nowMs` stands for `Date.now()` (milliseconds). -/
def isExpired (nowMs : Int) (expirationMicros : Int) : Bool :=
  let currentTimeMicros := msToMicros nowMs
  currentTimeMicros > expirationMicros

/-- `currentBlobs` from AccountBlobs.tsx:
`blobs.filter((blob) => !isExpired(blob.expirationMicros)).reverse()`. -/
def currentBlobs (nowMs : Int) (blobs : List BlobMetadata) : List BlobMetadata :=
  (blobs.filter (fun blob => !isExpired nowMs blob.expirationMicros)).reverse

/-- `expiredBlobs` from AccountBlobs.tsx:
`blobs.filter((blob) => isExpired(blob.expirationMicros)).reverse()`. -/
def expiredBlobs (nowMs : Int) (blobs : List BlobMetadata) : List BlobMetadata :=
  (blobs.filter (fun blob => isExpired nowMs blob.expirationMicros)).reverse

/-- The `useEffect` body of `AccountBlobs` run on a change of
`[account, refreshTrigger]`: when no account is connected it synchronously
clears the blob state and issues no fetch; otherwise it leaves the previous
blob state in place and issues a fetch for the given account.  The first
component is the blob state immediately after the effect runs (before any
pending fetch resolves); the second is the fetch request issued. -/
def accountBlobsEffect (account : Option Address) (blobs : List BlobMetadata) :
    List BlobMetadata × Option Address :=
  match account with
  | none => ([], none)
  | some a => (blobs, some a)

end Shelby

namespace Shelby

/-- JS `\s` (the whitespace class used by `input.replace(/\s+/g, "-")`):
space, tab, LF, VT, FF, CR, NBSP, Ogham space, the U+2000..U+200A spaces,
LS, PS, NNBSP, MMSP, ideographic space and BOM, by code point. -/
def isJsWhitespace (c : Char) : Bool :=
  c.toNat == 32 || c.toNat == 9 || c.toNat == 10 || c.toNat == 11 ||
  c.toNat == 12 || c.toNat == 13 || c.toNat == 0xA0 || c.toNat == 0x1680 ||
  (decide (0x2000 ≤ c.toNat) && decide (c.toNat ≤ 0x200A)) ||
  c.toNat == 0x2028 || c.toNat == 0x2029 || c.toNat == 0x202F ||
  c.toNat == 0x205F || c.toNat == 0x3000 || c.toNat == 0xFEFF

/-- The character class `[a-zA-Z0-9-_]` of `sanitizeInput`'s second replace,
by code point (a-z, A-Z, 0-9, hyphen, underscore). -/
def allowedFilenameChar (c : Char) : Bool :=
  (decide (97 ≤ c.toNat) && decide (c.toNat ≤ 122)) ||
  (decide (65 ≤ c.toNat) && decide (c.toNat ≤ 90)) ||
  (decide (48 ≤ c.toNat) && decide (c.toNat ≤ 57)) ||
  c.toNat == 45 || c.toNat == 95

/-- `input.replace(/\s+/g, "-")`: each maximal run of whitespace becomes a
single hyphen.  The boolean records whether the previous character was part
of a whitespace run still being consumed. -/
def collapseWsAux : Bool → List Char → List Char
  | _, [] => []
  | true, c :: cs =>
    if isJsWhitespace c then collapseWsAux true cs
    else c :: collapseWsAux false cs
  | false, c :: cs =>
    if isJsWhitespace c then '-' :: collapseWsAux true cs
    else c :: collapseWsAux false cs

def replaceWsWithHyphen (l : List Char) : List Char := collapseWsAux false l

/-- `sanitized.replace(/[^a-zA-Z0-9-_]/g, "-")`: every character outside the
allowed class becomes a hyphen. -/
def replaceInvalidWithHyphen (l : List Char) : List Char :=
  l.map (fun c => if allowedFilenameChar c then c else '-')

/-- The third replace of `sanitizeInput` (regex: one or more hyphens, global,
replaced by a single hyphen): each maximal run of hyphens becomes one. -/
def collapseHyphensAux : Bool → List Char → List Char
  | _, [] => []
  | true, c :: cs =>
    if c = '-' then collapseHyphensAux true cs
    else c :: collapseHyphensAux false cs
  | false, c :: cs =>
    if c = '-' then '-' :: collapseHyphensAux true cs
    else c :: collapseHyphensAux false cs

def collapseHyphens (l : List Char) : List Char := collapseHyphensAux false l

/-- `sanitized.replace(/^-+|-+$/g, "")`: strip the leading and the trailing
run of hyphens. -/
def trimHyphens (l : List Char) : List Char :=
  ((l.dropWhile (fun c => c == '-')).reverse.dropWhile (fun c => c == '-')).reverse

/-- `sanitizeInput` from FileUpload: replace whitespace runs with a hyphen,
replace remaining invalid characters with hyphens, collapse consecutive
hyphens, then remove leading/trailing hyphens. -/
def sanitizeInput (s : String) : String :=
  String.mk (trimHyphens (collapseHyphens (replaceInvalidWithHyphen
    (replaceWsWithHyphen s.data))))

/-- Two adjacent characters are never both hyphens. -/
def HyphenApart (a b : Char) : Prop := ¬(a = '-' ∧ b = '-')

end Shelby

namespace Shelby

/-- `BlobCommitments` as produced by the encoder (the fields the submitter
reads: `blob_merkle_root`, `raw_data_size`). -/
structure BlobCommitments where
  blob_merkle_root : Nat
  raw_data_size : Int
deriving DecidableEq

/-- A `File`: name plus opaque content. -/
structure FileT where
  name : String
  content : List Nat
deriving DecidableEq

/-- The registration payload built by `createRegisterBlobPayload`. -/
structure Payload where
  account : Address
  blobName : String
  blobMerkleRoot : Nat
  numChunksets : Nat
  expirationMicros : Int
  blobSize : Int
deriving DecidableEq

/-- Modelled from the spec: `ShelbyBlobClient.createRegisterBlobPayload`
(the Registration Payload Builder) lives in the external
`@shelby-protocol/sdk` package, not under src/; only its call site in
`useSubmitFileToChain` is in the repository.  Per the spec it is a pure
function with no failure modes beyond invalid-argument — negative size,
empty name, or expiration ≤ now — which must fail fast with a validation
error before any network call. -/
def createRegisterBlobPayload (nowMicros : Int) (account : Address)
    (blobName : String) (blobMerkleRoot : Nat) (numChunksets : Nat)
    (expirationMicros : Int) (blobSize : Int) : Except String Payload :=
  if blobSize < 0 then .error "validation: negative size"
  else if blobName = "" then .error "validation: empty name"
  else if expirationMicros ≤ nowMicros then .error "validation: expiration not after now"
  else .ok { account := account, blobName := blobName, blobMerkleRoot := blobMerkleRoot,
             numChunksets := numChunksets, expirationMicros := expirationMicros,
             blobSize := blobSize }

/-- A raw (unsigned) transaction as built by
`aptos.transaction.build.simple({ sender, data, withFeePayer })`; `chainMeta`
stands for the chain-fetched parts (sequence number, gas fields) that can
differ between two distinct builds. -/
structure RawTransaction where
  sender : Address
  payload : Payload
  withFeePayer : Bool
  chainMeta : Nat
deriving DecidableEq

/-- An account authenticator: which signer produced it and over which raw
transaction it was computed. -/
structure AccountAuthenticator where
  signerKey : Nat
  signedTx : RawTransaction
deriving DecidableEq

/-- `Account.fromPrivateKey` on the formatted sponsor credential: the derived
sponsor signer. -/
def accountFromPrivateKey (privateKey : Nat) : Nat := privateKey

/-- `aptos.transaction.signAsFeePayer({ signer, transaction })`: local
deterministic signing of the given raw transaction by the sponsor. -/
def signAsFeePayer (signer : Nat) (transaction : RawTransaction) :
    AccountAuthenticator :=
  { signerKey := signer, signedTx := transaction }

/-- The wallet capability descriptor (`wallet.isAptosNativeWallet`). -/
structure Wallet where
  isAptosNativeWallet : Bool
deriving DecidableEq

/-- Observable external calls made by the submitter and the upload
sequencer, in order. -/
inductive Ev
  | createPayload (p : Payload)
  | signAndSubmit (data : Payload)
  | waitForTransaction (h : Hash)
  | sponsorConstructed (signer : Nat)
  | buildRaw (sender : Address) (data : Payload) (withFeePayer : Bool)
  | signDetached (tx : RawTransaction)
  | feePayerSign (tx : RawTransaction) (signer : Nat)
  | submitSimple (tx : RawTransaction) (senderAuth feePayerAuth : AccountAuthenticator)
  | encodeCall (f : FileT) (n k d : Nat)
  | chainSubmitCall (c : BlobCommitments) (f : FileT) (expirationMicros : Int)
  | rcpUpload (f : FileT)
  | successShown (txHash : Hash) (fileName : String)
  | refreshTriggered
  | alertShown (msg : String)
deriving DecidableEq

/-- Environment of `useSubmitFileToChain`: the connected identity, the
wallet capability, the sponsor credential, and one oracle per external
suspension point (each may succeed or throw with a message). -/
structure SubmitEnv where
  account : Option Address
  wallet : Option Wallet
  sponsorPrivateKey : Nat
  expectedTotalChunksets : Int → Nat
  nowMicros : Int
  signAndSubmitTransaction : Payload → Except String Hash
  waitForTransaction : Hash → Except String Unit
  buildSimpleMeta : Except String Nat
  signTransaction : RawTransaction → Except String AccountAuthenticator
  submitSimple : RawTransaction → AccountAuthenticator → AccountAuthenticator →
    Except String Hash

/-- The state the hook exposes to callers: `isSubmitting` and `error`. -/
structure HookState where
  isSubmitting : Bool
  error : Option String
deriving DecidableEq

/-- Result of one `submitFileToChain` call: the returned/thrown value, the
ordered list of external calls made, and the exposed state afterwards. -/
structure SubmitOutcome where
  result : Except String Hash
  events : List Ev
  state : HookState

/-- `submitFileToChain` from `useSubmitFileToChain`: throws when account or
wallet is absent (before touching state); otherwise sets the in-progress
flag, clears the error, builds the registration payload, then follows the
native path (`signAndSubmitTransaction` + finality wait) or the sponsored
path (sponsor identity, one raw-transaction build, detached wallet
signature, fee-payer signature over the same raw transaction, one submit
with both authenticators, finality wait).  Any thrown error is caught:
the error message is stored and rethrown, and `finally` resets the flag. -/
def submitFileToChain (env : SubmitEnv) (st : HookState)
    (commitment : BlobCommitments) (file : FileT) (expirationMicros : Int) :
    SubmitOutcome :=
  match env.account, env.wallet with
  | none, _ => ⟨.error "Account and wallet are required", [], st⟩
  | some _, none => ⟨.error "Account and wallet are required", [], st⟩
  | some accountAddr, some wallet =>
    match createRegisterBlobPayload env.nowMicros accountAddr file.name
        commitment.blob_merkle_root (env.expectedTotalChunksets commitment.raw_data_size)
        expirationMicros commitment.raw_data_size with
    | .error e => ⟨.error e, [], ⟨false, some e⟩⟩
    | .ok payload =>
      if wallet.isAptosNativeWallet then
        match env.signAndSubmitTransaction payload with
        | .error e =>
          ⟨.error e, [.createPayload payload, .signAndSubmit payload], ⟨false, some e⟩⟩
        | .ok h =>
          match env.waitForTransaction h with
          | .error e =>
            ⟨.error e, [.createPayload payload, .signAndSubmit payload,
              .waitForTransaction h], ⟨false, some e⟩⟩
          | .ok _ =>
            ⟨.ok h, [.createPayload payload, .signAndSubmit payload,
              .waitForTransaction h], ⟨false, none⟩⟩
      else
        let sponsorAccount := accountFromPrivateKey env.sponsorPrivateKey
        match env.buildSimpleMeta with
        | .error e =>
          ⟨.error e, [.createPayload payload, .sponsorConstructed sponsorAccount,
            .buildRaw accountAddr payload true], ⟨false, some e⟩⟩
        | .ok meta =>
          let rawTransaction : RawTransaction :=
            { sender := accountAddr, payload := payload, withFeePayer := true,
              chainMeta := meta }
          match env.signTransaction rawTransaction with
          | .error e =>
            ⟨.error e, [.createPayload payload, .sponsorConstructed sponsorAccount,
              .buildRaw accountAddr payload true, .signDetached rawTransaction],
              ⟨false, some e⟩⟩
          | .ok walletAuth =>
            let sponsorAuthenticator := signAsFeePayer sponsorAccount rawTransaction
            match env.submitSimple rawTransaction walletAuth sponsorAuthenticator with
            | .error e =>
              ⟨.error e, [.createPayload payload, .sponsorConstructed sponsorAccount,
                .buildRaw accountAddr payload true, .signDetached rawTransaction,
                .feePayerSign rawTransaction sponsorAccount,
                .submitSimple rawTransaction walletAuth sponsorAuthenticator],
                ⟨false, some e⟩⟩
            | .ok h =>
              match env.waitForTransaction h with
              | .error e =>
                ⟨.error e, [.createPayload payload, .sponsorConstructed sponsorAccount,
                  .buildRaw accountAddr payload true, .signDetached rawTransaction,
                  .feePayerSign rawTransaction sponsorAccount,
                  .submitSimple rawTransaction walletAuth sponsorAuthenticator,
                  .waitForTransaction h], ⟨false, some e⟩⟩
              | .ok _ =>
                ⟨.ok h, [.createPayload payload, .sponsorConstructed sponsorAccount,
                  .buildRaw accountAddr payload true, .signDetached rawTransaction,
                  .feePayerSign rawTransaction sponsorAccount,
                  .submitSimple rawTransaction walletAuth sponsorAuthenticator,
                  .waitForTransaction h], ⟨false, none⟩⟩

end Shelby

namespace Shelby

/-- `name.split(".")` (JS split with separator "."): accumulate the current
segment and cut at every dot. -/
def splitDotAux : List Char → List Char → List String
  | acc, [] => [String.mk acc.reverse]
  | acc, c :: cs =>
    if c = '.' then String.mk acc.reverse :: splitDotAux [] cs
    else splitDotAux (c :: acc) cs

/-- JS `trim()`: strip whitespace from both ends. -/
def jsTrim (s : String) : String :=
  String.mk (((s.data.dropWhile isJsWhitespace).reverse.dropWhile
    isJsWhitespace).reverse)

/-- `getFileExtension` from FileUpload: the dot plus last segment of the
selected file's name when it has one, else the empty string. -/
def getFileExtension (name : String) : String :=
  let parts := splitDotAux [] name.data
  if parts.length > 1 then "." ++ parts.getLastD "" else ""

/-- `generateFileName` from FileUpload: sanitized location, date and id
joined by underscores, plus the original extension. -/
def generateFileName (location : String) (date : String) (id : String)
    (selectedName : String) : String :=
  sanitizeInput location ++ "_" ++ sanitizeInput date ++ "_" ++ sanitizeInput id ++
    getFileExtension selectedName

/-- `isFormValid` from FileUpload: all three naming fields are non-blank. -/
def isFormValid (location : String) (date : String) (id : String) : Bool :=
  jsTrim location ≠ "" && jsTrim date ≠ "" && jsTrim id ≠ ""

/-- One entry of `redundancyOptions`. -/
structure RedundancyOption where
  value : String
  erasure_n : Nat
  erasure_k : Nat
  erasure_d : Nat
deriving DecidableEq

/-- The three shipped redundancy profiles of FileUpload. -/
def redundancyOptions : List RedundancyOption :=
  [⟨"economic", 12, 10, 11⟩, ⟨"standard", 16, 10, 13⟩, ⟨"high", 20, 10, 15⟩]

/-- `redundancyOptions.find(...) || redundancyOptions[1]`: the option whose
value matches the chosen level, defaulting to Standard. -/
def redundancyConfigFor (level : String) : RedundancyOption :=
  match redundancyOptions.find? (fun opt => opt.value = level) with
  | some opt => opt
  | none => ⟨"standard", 16, 10, 13⟩

/-- Environment of `FileUpload.uploadFile`: the selected file and form
fields, the chosen duration and redundancy level, `Date.now()` in
milliseconds, the encoder and storage oracles, and the submit hook's own
environment (the connected account and wallet are read from the same
`useWallet` it uses). -/
structure UploadEnv where
  selectedFile : Option FileT
  location : String
  date : String
  id : String
  duration : Int
  redundancyLevel : String
  nowMs : Int
  encodeFile : FileT → Nat → Nat → Nat → Except String BlobCommitments
  uploadFileToRcp : FileT → Except String Unit
  sub : SubmitEnv

/-- The state `FileUpload` exposes: in-progress flag, success dialog,
transaction hash and final name. -/
structure UploadState where
  isUploading : Bool
  showSuccessDialog : Bool
  transactionHash : String
  uploadedFileName : String
deriving DecidableEq

/-- Result of one `uploadFile` run: ordered external calls, the FileUpload
state and the submit hook's exposed state afterwards. -/
structure UploadOutcome where
  events : List Ev
  state : UploadState
  hookState : HookState

/-- `uploadFile` from FileUpload: guard (file, account, wallet, form), then
rename the file from the sanitized fields, encode with the chosen
redundancy profile, compute `expirationMicros = Date.now() * 1000 +
duration`, submit to chain via `submitFileToChain`, upload the raw bytes,
and only then record success (dialog, hash, file name) and trigger the
listing refresh; any failure alerts and aborts, and `finally` resets the
in-progress flag. -/
def uploadFile (env : UploadEnv) (st : UploadState) (hst : HookState) :
    UploadOutcome :=
  match env.selectedFile, env.sub.account, env.sub.wallet with
  | some selectedFile, some _, some _ =>
    if isFormValid env.location env.date env.id then
      let newFileName := generateFileName env.location env.date env.id selectedFile.name
      let fileWithNewName : FileT := { selectedFile with name := newFileName }
      let cfg := redundancyConfigFor env.redundancyLevel
      match env.encodeFile fileWithNewName cfg.erasure_n cfg.erasure_k cfg.erasure_d with
      | .error e =>
        ⟨[.encodeCall fileWithNewName cfg.erasure_n cfg.erasure_k cfg.erasure_d,
          .alertShown ("Upload failed: " ++ e)],
          { st with isUploading := false }, hst⟩
      | .ok commitments =>
        let expirationMicros := msToMicros env.nowMs + env.duration
        let subOut := submitFileToChain env.sub hst commitments fileWithNewName
          expirationMicros
        let evs0 := [Ev.encodeCall fileWithNewName cfg.erasure_n cfg.erasure_k
            cfg.erasure_d,
          Ev.chainSubmitCall commitments fileWithNewName expirationMicros] ++
          subOut.events
        match subOut.result with
        | .error e =>
          ⟨evs0 ++ [.alertShown ("Upload failed: " ++ e)],
            { st with isUploading := false }, subOut.state⟩
        | .ok txHash =>
          match env.uploadFileToRcp fileWithNewName with
          | .error e =>
            ⟨evs0 ++ [.rcpUpload fileWithNewName, .alertShown ("Upload failed: " ++ e)],
              { st with isUploading := false }, subOut.state⟩
          | .ok _ =>
            ⟨evs0 ++ [.rcpUpload fileWithNewName, .successShown txHash newFileName,
              .refreshTriggered],
              { isUploading := false, showSuccessDialog := true,
                transactionHash := txHash, uploadedFileName := newFileName },
              subOut.state⟩
    else ⟨[], st, hst⟩
  | _, _, _ => ⟨[], st, hst⟩

/-- Whether an event belongs to the upload sequencer (as opposed to the
submitter): used to state that the submitter's traces contain no
sequencer-side events. -/
def sequencerEvent : Ev → Bool
  | Ev.encodeCall _ _ _ _ => true
  | Ev.chainSubmitCall _ _ _ => true
  | Ev.rcpUpload _ => true
  | Ev.successShown _ _ => true
  | Ev.refreshTriggered => true
  | Ev.alertShown _ => true
  | _ => false

/-- A concrete selected file for witnesses. -/
def fileA : FileT := ⟨"x.jpg", [1]⟩

/-- A concrete commitment for witnesses. -/
def commitA : BlobCommitments := ⟨5, 10⟩

/-- The renamed file `uploadFile` produces from `fileA` and the fields
"a"/"b"/"c". -/
def fileRenamed : FileT := ⟨"a_b_c.jpg", [1]⟩

/-- The hook state before a fresh submission. -/
def hookState0 : HookState := ⟨false, none⟩

/-- The FileUpload state before a fresh run. -/
def uploadState0 : UploadState := ⟨false, false, "", ""⟩

/-- A submit environment whose oracles all succeed, with a native wallet. -/
def baseSubmitEnv : SubmitEnv :=
  { account := some "alice", wallet := some ⟨true⟩, sponsorPrivateKey := 7,
    expectedTotalChunksets := fun _ => 1, nowMicros := 0,
    signAndSubmitTransaction := fun _ => Except.ok "h1",
    waitForTransaction := fun _ => Except.ok (),
    buildSimpleMeta := Except.ok 3,
    signTransaction := fun tx => Except.ok ⟨1, tx⟩,
    submitSimple := fun _ _ _ => Except.ok "h2" }

/-- `baseSubmitEnv` with no connected account. -/
def envNoAccount : SubmitEnv := { baseSubmitEnv with account := none }

/-- `baseSubmitEnv` whose native sign-and-submit call throws. -/
def envNativeFail : SubmitEnv :=
  { baseSubmitEnv with signAndSubmitTransaction := fun _ => Except.error "boom" }

/-- `baseSubmitEnv` with a non-native wallet (sponsored path). -/
def envSponsored : SubmitEnv := { baseSubmitEnv with wallet := some ⟨false⟩ }

/-- An upload environment whose run succeeds end to end. -/
def uploadEnvOk : UploadEnv :=
  { selectedFile := some fileA, location := "a", date := "b", id := "c",
    duration := 100, redundancyLevel := "standard", nowMs := 1,
    encodeFile := fun _ _ _ _ => Except.ok commitA,
    uploadFileToRcp := fun _ => Except.ok (),
    sub := baseSubmitEnv }

/-- `uploadEnvOk` whose chain submission step throws. -/
def uploadEnvFail : UploadEnv := { uploadEnvOk with sub := envNativeFail }

end Shelby

namespace Shelby

theorem allowed_not_ws (c : Char) (h : allowedFilenameChar c = true) :
    isJsWhitespace c = false := by
  cases hb : isJsWhitespace c with
  | false => rfl
  | true =>
    exfalso
    simp only [allowedFilenameChar, Bool.or_eq_true, Bool.and_eq_true,
      decide_eq_true_eq, beq_iff_eq] at h
    simp only [isJsWhitespace, Bool.or_eq_true, Bool.and_eq_true,
      decide_eq_true_eq, beq_iff_eq] at hb
    omega

theorem collapseWsAux_eq_self (l : List Char)
    (h : ∀ c ∈ l, isJsWhitespace c = false) : ∀ b, collapseWsAux b l = l := by
  induction l with
  | nil => intro b; cases b <;> rfl
  | cons c cs ih =>
    intro b
    have hc := h c (List.mem_cons_self c cs)
    have ihs := ih (fun x hx => h x (List.mem_cons_of_mem c hx)) false
    cases b <;> simp [collapseWsAux, hc, ihs]

theorem mem_replaceInvalid_allowed (l : List Char) :
    ∀ c ∈ replaceInvalidWithHyphen l, allowedFilenameChar c = true := by
  intro c hc
  simp only [replaceInvalidWithHyphen, List.mem_map] at hc
  obtain ⟨a, -, rfl⟩ := hc
  cases h : allowedFilenameChar a with
  | true => simp [h]
  | false =>
    rw [if_neg (by simp : ¬(false = true))]
    decide

theorem replaceInvalid_eq_self (l : List Char)
    (h : ∀ c ∈ l, allowedFilenameChar c = true) :
    replaceInvalidWithHyphen l = l := by
  induction l with
  | nil => rfl
  | cons c cs ih =>
    have hc := h c (List.mem_cons_self c cs)
    have ihs := ih (fun x hx => h x (List.mem_cons_of_mem c hx))
    simp only [replaceInvalidWithHyphen, List.map_cons, hc, if_true]
    simpa [replaceInvalidWithHyphen] using ihs

theorem mem_collapseHyphensAux :
    ∀ (l : List Char) (b : Bool), ∀ c ∈ collapseHyphensAux b l, c ∈ l := by
  intro l
  induction l with
  | nil => intro b c hc; cases b <;> simp [collapseHyphensAux] at hc
  | cons a as ih =>
    intro b c hc
    by_cases ha : a = '-'
    · subst ha
      cases b with
      | true =>
        have step : collapseHyphensAux true ('-' :: as) = collapseHyphensAux true as := by
          simp [collapseHyphensAux]
        rw [step] at hc
        exact List.mem_cons_of_mem _ (ih true c hc)
      | false =>
        have step : collapseHyphensAux false ('-' :: as) =
            '-' :: collapseHyphensAux true as := by
          simp [collapseHyphensAux]
        rw [step, List.mem_cons] at hc
        rcases hc with rfl | hc
        · exact List.mem_cons_self _ _
        · exact List.mem_cons_of_mem _ (ih true c hc)
    · have step : collapseHyphensAux b (a :: as) = a :: collapseHyphensAux false as := by
        cases b <;> simp [collapseHyphensAux, ha]
      rw [step, List.mem_cons] at hc
      rcases hc with rfl | hc
      · exact List.mem_cons_self _ _
      · exact List.mem_cons_of_mem _ (ih false c hc)

theorem collapseHyphensAux_true_head :
    ∀ (l : List Char) (c : Char) (cs : List Char),
      collapseHyphensAux true l = c :: cs → c ≠ '-' := by
  intro l
  induction l with
  | nil => intro c cs h; simp [collapseHyphensAux] at h
  | cons a as ih =>
    intro c cs h
    by_cases ha : a = '-'
    · subst ha
      have step : collapseHyphensAux true ('-' :: as) = collapseHyphensAux true as := by
        simp [collapseHyphensAux]
      rw [step] at h
      exact ih c cs h
    · have step : collapseHyphensAux true (a :: as) = a :: collapseHyphensAux false as := by
        simp [collapseHyphensAux, ha]
      rw [step] at h
      have hac : a = c := (List.cons.injEq _ _ _ _).mp h |>.1
      exact fun hc => ha (hac.trans hc)

theorem chain'_collapseHyphensAux :
    ∀ (l : List Char) (b : Bool), (collapseHyphensAux b l).Chain' HyphenApart := by
  intro l
  induction l with
  | nil => intro b; cases b <;> simp [collapseHyphensAux]
  | cons a as ih =>
    intro b
    by_cases ha : a = '-'
    · subst ha
      cases b with
      | true =>
        have step : collapseHyphensAux true ('-' :: as) = collapseHyphensAux true as := by
          simp [collapseHyphensAux]
        rw [step]
        exact ih true
      | false =>
        have step : collapseHyphensAux false ('-' :: as) =
            '-' :: collapseHyphensAux true as := by
          simp [collapseHyphensAux]
        rw [step, List.chain'_cons']
        refine ⟨?_, ih true⟩
        intro y hy
        cases hh : collapseHyphensAux true as with
        | nil => rw [hh] at hy; simp at hy
        | cons z zs =>
          rw [hh] at hy
          simp only [List.head?_cons, Option.mem_def, Option.some.injEq] at hy
          have hz : z ≠ '-' := collapseHyphensAux_true_head as z zs hh
          exact fun hcon => hz (hy.trans hcon.2)
    · have step : collapseHyphensAux b (a :: as) = a :: collapseHyphensAux false as := by
        cases b <;> simp [collapseHyphensAux, ha]
      rw [step, List.chain'_cons']
      exact ⟨fun y _ => fun hcon => ha hcon.1, ih false⟩

theorem collapseHyphensAux_id (l : List Char) (h : l.Chain' HyphenApart) :
    collapseHyphensAux false l = l ∧
      ((∀ c cs, l = c :: cs → c ≠ '-') → collapseHyphensAux true l = l) := by
  induction l with
  | nil => exact ⟨rfl, fun _ => rfl⟩
  | cons a as ih =>
    obtain ⟨ih1, ih2⟩ := ih h.tail
    by_cases ha : a = '-'
    · subst ha
      have hhead : ∀ c cs, as = c :: cs → c ≠ '-' := by
        intro c cs hcs hc
        subst hcs
        subst hc
        exact (List.chain'_cons.mp h).1 ⟨rfl, rfl⟩
      have htrue : collapseHyphensAux true as = as := ih2 hhead
      refine ⟨by simp [collapseHyphensAux, htrue], ?_⟩
      intro hno
      exact absurd rfl (hno '-' as rfl)
    · exact ⟨by simp [collapseHyphensAux, ha, ih1],
        fun _ => by simp [collapseHyphensAux, ha, ih1]⟩

theorem hyphenApart_flip {a b : Char} (h : HyphenApart a b) :
    HyphenApart b a := fun hc => h ⟨hc.2, hc.1⟩

theorem chain'_reverse_hyphen {l : List Char} (h : l.Chain' HyphenApart) :
    l.reverse.Chain' HyphenApart :=
  List.chain'_reverse.mpr (h.imp fun _ _ hab => hyphenApart_flip hab)

theorem chain'_trimHyphens (l : List Char) (h : l.Chain' HyphenApart) :
    (trimHyphens l).Chain' HyphenApart := by
  unfold trimHyphens
  have h1 : (l.dropWhile (fun c => c == '-')).Chain' HyphenApart :=
    h.suffix (List.dropWhile_suffix _)
  have h2 := chain'_reverse_hyphen h1
  have h3 : ((l.dropWhile (fun c => c == '-')).reverse.dropWhile
      (fun c => c == '-')).Chain' HyphenApart :=
    h2.suffix (List.dropWhile_suffix _)
  exact chain'_reverse_hyphen h3

theorem mem_trimHyphens (l : List Char) : ∀ c ∈ trimHyphens l, c ∈ l := by
  intro c hc
  unfold trimHyphens at hc
  rw [List.mem_reverse] at hc
  have h1 := (List.dropWhile_sublist (l := (l.dropWhile (fun c => c == '-')).reverse)
    (fun c => c == '-')).subset hc
  rw [List.mem_reverse] at h1
  exact (List.dropWhile_sublist (fun c => c == '-')).subset h1

theorem head?_trimHyphens (l : List Char) :
    ∀ c, (trimHyphens l).head? = some c → (c == '-') = false := by
  intro c hc
  unfold trimHyphens at hc
  rw [List.head?_reverse] at hc
  obtain ⟨t, ht⟩ := List.dropWhile_suffix
    (l := (l.dropWhile (fun c => c == '-')).reverse) (fun c => c == '-')
  have hw : (l.dropWhile (fun c => c == '-')).reverse.dropWhile
      (fun c => c == '-') ≠ [] := by
    intro hnil
    rw [hnil] at hc
    simp at hc
  have hlast : ((l.dropWhile (fun c => c == '-')).reverse).getLast? = some c := by
    rw [← ht, List.getLast?_append_of_ne_nil t hw]
    exact hc
  rw [List.getLast?_reverse] at hlast
  have := List.head?_dropWhile_not (fun c => c == '-') l
  rw [hlast] at this
  exact this

theorem getLast?_trimHyphens (l : List Char) :
    ∀ c, (trimHyphens l).getLast? = some c → (c == '-') = false := by
  intro c hc
  unfold trimHyphens at hc
  rw [List.getLast?_reverse] at hc
  have := List.head?_dropWhile_not (fun c => c == '-')
    (l.dropWhile (fun c => c == '-')).reverse
  rw [hc] at this
  exact this

theorem trimHyphens_eq_self (l : List Char)
    (hh : ∀ c, l.head? = some c → (c == '-') = false)
    (hl : ∀ c, l.getLast? = some c → (c == '-') = false) :
    trimHyphens l = l := by
  have h1 : l.dropWhile (fun c => c == '-') = l := by
    cases l with
    | nil => rfl
    | cons a as =>
      have := hh a rfl
      simp [List.dropWhile_cons, this]
  unfold trimHyphens
  rw [h1]
  have h2 : l.reverse.dropWhile (fun c => c == '-') = l.reverse := by
    cases hr : l.reverse with
    | nil => rfl
    | cons a as =>
      have ha : l.getLast? = some a := by
        rw [← List.head?_reverse, hr]
        rfl
      have := hl a ha
      simp [List.dropWhile_cons, this]
  rw [h2, List.reverse_reverse]

/-- C10: `sanitizeInput` is idempotent — sanitizing an already-sanitized
string is the identity, so a filename assembled from sanitized fields is
unchanged by re-sanitization. -/
theorem sanitizeInput_idempotent (s : String) :
    sanitizeInput (sanitizeInput s) = sanitizeInput s := by
  unfold sanitizeInput
  have hdata : (String.mk (trimHyphens (collapseHyphens (replaceInvalidWithHyphen
      (replaceWsWithHyphen s.data))))).data =
      trimHyphens (collapseHyphens (replaceInvalidWithHyphen
        (replaceWsWithHyphen s.data))) := rfl
  rw [hdata]
  have hallow : ∀ c ∈ trimHyphens (collapseHyphens (replaceInvalidWithHyphen
      (replaceWsWithHyphen s.data))), allowedFilenameChar c = true := by
    intro c hc
    have h1 := mem_trimHyphens _ c hc
    have h2 := mem_collapseHyphensAux _ false c h1
    exact mem_replaceInvalid_allowed _ c h2
  have hws : replaceWsWithHyphen (trimHyphens (collapseHyphens
      (replaceInvalidWithHyphen (replaceWsWithHyphen s.data)))) =
      trimHyphens (collapseHyphens (replaceInvalidWithHyphen
        (replaceWsWithHyphen s.data))) :=
    collapseWsAux_eq_self _ (fun c hc => allowed_not_ws c (hallow c hc)) false
  have hinv := replaceInvalid_eq_self _ hallow
  have hchain : (trimHyphens (collapseHyphens (replaceInvalidWithHyphen
      (replaceWsWithHyphen s.data)))).Chain' HyphenApart :=
    chain'_trimHyphens _ (chain'_collapseHyphensAux _ false)
  have hcol : collapseHyphens (trimHyphens (collapseHyphens
      (replaceInvalidWithHyphen (replaceWsWithHyphen s.data)))) =
      trimHyphens (collapseHyphens (replaceInvalidWithHyphen
        (replaceWsWithHyphen s.data))) :=
    (collapseHyphensAux_id _ hchain).1
  have htrim := trimHyphens_eq_self
    (trimHyphens (collapseHyphens (replaceInvalidWithHyphen
      (replaceWsWithHyphen s.data))))
    (head?_trimHyphens _) (getLast?_trimHyphens _)
  rw [hws, hinv, hcol, htrim]

end Shelby

namespace Shelby

/-- C4: the classifier's current and expired views are exhaustive and
disjoint — every fetched blob appears in exactly one of the two views
(it is in at least one, and in the current view exactly when it is not in
the expired view). -/
theorem classifier_partition_exhaustive_disjoint
    (nowMs : Int) (blobs : List BlobMetadata) (b : BlobMetadata)
    (hmem : b ∈ blobs) :
    (b ∈ currentBlobs nowMs blobs ↔ b ∉ expiredBlobs nowMs blobs) ∧
    (b ∈ currentBlobs nowMs blobs ∨ b ∈ expiredBlobs nowMs blobs) := by
  simp only [currentBlobs, expiredBlobs, List.mem_reverse, List.mem_filter]
  constructor
  · constructor
    · rintro ⟨-, hcur⟩ ⟨-, hexp⟩
      simp [hexp] at hcur
    · intro hn
      refine ⟨hmem, ?_⟩
      by_contra hc
      exact hn ⟨hmem, by simpa using hc⟩
  · by_cases he : isExpired nowMs b.expirationMicros
    · exact Or.inr ⟨hmem, he⟩
    · exact Or.inl ⟨hmem, by simpa using he⟩

/-- Witness for C4 at a concrete fetched list: a blob whose expiration is in
the past lies in the expired view and not in the current view. -/
theorem classifier_partition_exhaustive_disjoint_witness :
    (⟨"a", "o", 500, 1⟩ ∈ currentBlobs 1 [⟨"a", "o", 500, 1⟩] ↔
      (⟨"a", "o", 500, 1⟩ : BlobMetadata) ∉ expiredBlobs 1 [⟨"a", "o", 500, 1⟩]) ∧
    ((⟨"a", "o", 500, 1⟩ : BlobMetadata) ∈ currentBlobs 1 [⟨"a", "o", 500, 1⟩] ∨
      (⟨"a", "o", 500, 1⟩ : BlobMetadata) ∈ expiredBlobs 1 [⟨"a", "o", 500, 1⟩]) :=
  classifier_partition_exhaustive_disjoint 1 [⟨"a", "o", 500, 1⟩] ⟨"a", "o", 500, 1⟩
    (List.mem_singleton.mpr rfl)

/-- C3 counterexample: a blob whose stored expiration equals the current time
in microseconds (`expirationMicros = 1000 = msToMicros 1`) is NOT classified
expired by the code — `isExpired` uses a strict `>` — so it lands in the
current view, contradicting the claim that ties resolve to expired. -/
theorem tie_classified_current_counterexample :
    isExpired 1 (msToMicros 1) = false ∧
    currentBlobs 1 [⟨"a", "o", msToMicros 1, 1⟩] = [⟨"a", "o", msToMicros 1, 1⟩] ∧
    expiredBlobs 1 [⟨"a", "o", msToMicros 1, 1⟩] = [] := by
  refine ⟨rfl, ?_, ?_⟩ <;> decide

/-- C3 amended: a blob whose stored expiration instant equals the current time
in microseconds is classified current, not expired; the code marks a blob
expired only when now strictly exceeds its expiration. -/
theorem tie_classified_current (nowMs : Int) (b : BlobMetadata)
    (blobs : List BlobMetadata) (hmem : b ∈ blobs)
    (htie : b.expirationMicros = msToMicros nowMs) :
    isExpired nowMs b.expirationMicros = false ∧
    b ∈ currentBlobs nowMs blobs ∧ b ∉ expiredBlobs nowMs blobs := by
  have hne : isExpired nowMs b.expirationMicros = false := by
    simp [isExpired, htie]
  refine ⟨hne, ?_, ?_⟩
  · simp [currentBlobs, List.mem_filter, hmem, hne]
  · simp [expiredBlobs, List.mem_filter, hne]

/-- Witness for the amended C3 at a concrete tie input. -/
theorem tie_classified_current_witness :
    isExpired 1 ((⟨"a", "o", 1000, 1⟩ : BlobMetadata)).expirationMicros = false ∧
    (⟨"a", "o", 1000, 1⟩ : BlobMetadata) ∈ currentBlobs 1 [⟨"a", "o", 1000, 1⟩] ∧
    (⟨"a", "o", 1000, 1⟩ : BlobMetadata) ∉ expiredBlobs 1 [⟨"a", "o", 1000, 1⟩] :=
  tie_classified_current 1 ⟨"a", "o", 1000, 1⟩ [⟨"a", "o", 1000, 1⟩]
    (List.mem_singleton.mpr rfl) rfl

end Shelby

namespace Shelby

/-- C6 counterexample: when the connected account changes from one account to
a different connected account, the effect does NOT clear the previously
fetched result before the new fetch resolves — the old blobs stay in state
(the code only clears when the account becomes absent). -/
theorem account_change_keeps_stale_counterexample :
    (accountBlobsEffect (some "b") [⟨"a", "o", 500, 1⟩]).1 = [⟨"a", "o", 500, 1⟩] ∧
    ([⟨"a", "o", 500, 1⟩] : List BlobMetadata) ≠ [] :=
  ⟨rfl, by decide⟩

/-- C6 amended: the effect clears the previously fetched result immediately
only when the account identity becomes absent (and then issues no fetch);
when the account changes to a different connected account, the previous
result is retained until the new fetch resolves. -/
theorem account_effect_clear_behavior :
    (∀ blobs : List BlobMetadata, accountBlobsEffect none blobs = ([], none)) ∧
    (∀ (a : Address) (blobs : List BlobMetadata),
      accountBlobsEffect (some a) blobs = (blobs, some a)) :=
  ⟨fun _ => rfl, fun _ _ => rfl⟩

end Shelby
namespace Shelby

/-- The submitter's event trace never contains a sequencer-side event
(encode, chain-submit-call marker, storage upload, success, refresh,
alert). -/
theorem submit_events_not_sequencer (env : SubmitEnv) (st : HookState)
    (c : BlobCommitments) (f : FileT) (exp : Int) :
    ∀ ev ∈ (submitFileToChain env st c f exp).events, sequencerEvent ev = false := by
  obtain ⟨acc, wal, spk, etc, now, sas, wft, bsm, sgt, sbs⟩ := env
  unfold submitFileToChain
  dsimp only
  repeat' split
  all_goals simp [List.forall_mem_cons, sequencerEvent]

/-- C9: when the account or wallet is absent, `submitFileToChain` throws
before touching any exposed state — the outcome is exactly the thrown
error, no external calls, and the state as it was before the call — while
every other failure stores the thrown message in `error` and resets
`isSubmitting` to false. -/
theorem submit_guard_preserves_state (env : SubmitEnv) (st : HookState)
    (c : BlobCommitments) (f : FileT) (exp : Int) :
    (env.account = none ∨ env.wallet = none →
      submitFileToChain env st c f exp =
        ⟨Except.error "Account and wallet are required", [], st⟩) ∧
    (∀ a w msg, env.account = some a → env.wallet = some w →
      (submitFileToChain env st c f exp).result = Except.error msg →
      (submitFileToChain env st c f exp).state = ⟨false, some msg⟩) := by
  constructor
  · rintro (ha | hw)
    · unfold submitFileToChain
      rw [ha]
    · unfold submitFileToChain
      rw [hw]
      cases env.account <;> rfl
  · intro a w msg ha hw hres
    unfold submitFileToChain at hres ⊢
    rw [ha, hw] at hres ⊢
    dsimp only at hres ⊢
    repeat' (split at hres)
    all_goals simp_all

/-- Witness for C9: with no account the outcome is the bare throw and the
pre-call state (here `isSubmitting = true`, `error = some "old"`) survives
untouched; with account and wallet present and a failing native submission,
the error is stored and the flag reset. -/
theorem submit_guard_preserves_state_witness :
    (submitFileToChain envNoAccount ⟨true, some "old"⟩ commitA fileA 50 =
      ⟨Except.error "Account and wallet are required", [], ⟨true, some "old"⟩⟩) ∧
    (submitFileToChain envNativeFail hookState0 commitA fileA 50).state =
      ⟨false, some "boom"⟩ :=
  ⟨(submit_guard_preserves_state envNoAccount ⟨true, some "old"⟩ commitA fileA 50).1
      (Or.inl rfl),
    (submit_guard_preserves_state envNativeFail hookState0 commitA fileA 50).2
      "alice" ⟨true⟩ "boom" rfl rfl rfl⟩

/-- C5: on the native path the submitter never constructs a sponsor
identity, never requests a detached (sender) authorization and never
produces a fee-payer authorization; and the entire outcome — in particular
the returned transaction hash — is invariant under any change of the
sponsor signing credential. -/
theorem native_path_sponsor_free (env : SubmitEnv) (st : HookState)
    (c : BlobCommitments) (f : FileT) (exp : Int) (w : Wallet)
    (hw : env.wallet = some w) (hn : w.isAptosNativeWallet = true) :
    (∀ k, Ev.sponsorConstructed k ∉ (submitFileToChain env st c f exp).events) ∧
    (∀ tx, Ev.signDetached tx ∉ (submitFileToChain env st c f exp).events) ∧
    (∀ tx k, Ev.feePayerSign tx k ∉ (submitFileToChain env st c f exp).events) ∧
    (∀ k, submitFileToChain { env with sponsorPrivateKey := k } st c f exp =
      submitFileToChain env st c f exp) := by
  obtain ⟨acc, wal, spk, etc, now, sas, wft, bsm, sgt, sbs⟩ := env
  simp only at hw
  subst hw
  cases acc with
  | none =>
    refine ⟨?_, ?_, ?_, ?_⟩ <;> intros <;> simp [submitFileToChain]
  | some a =>
    cases hp : createRegisterBlobPayload now a f.name c.blob_merkle_root
        (etc c.raw_data_size) exp c.raw_data_size with
    | error e =>
      refine ⟨?_, ?_, ?_, ?_⟩ <;> intros <;> simp [submitFileToChain, hp]
    | ok payload =>
      cases hs : sas payload with
      | error e =>
        refine ⟨?_, ?_, ?_, ?_⟩ <;> intros <;> simp [submitFileToChain, hp, hn, hs]
      | ok h =>
        cases hwt : wft h with
        | error e =>
          refine ⟨?_, ?_, ?_, ?_⟩ <;> intros <;>
            simp [submitFileToChain, hp, hn, hs, hwt]
        | ok u =>
          refine ⟨?_, ?_, ?_, ?_⟩ <;> intros <;>
            simp [submitFileToChain, hp, hn, hs, hwt]

/-- Witness for C5 at a successful native run: no sponsor construction in
the trace, and replacing the sponsor credential by 99 leaves the outcome
(hash included) unchanged. -/
theorem native_path_sponsor_free_witness :
    Ev.sponsorConstructed 99 ∉
      (submitFileToChain baseSubmitEnv hookState0 commitA fileA 50).events ∧
    submitFileToChain { baseSubmitEnv with sponsorPrivateKey := 99 }
        hookState0 commitA fileA 50 =
      submitFileToChain baseSubmitEnv hookState0 commitA fileA 50 :=
  ⟨(native_path_sponsor_free baseSubmitEnv hookState0 commitA fileA 50
      ⟨true⟩ rfl rfl).1 99,
    (native_path_sponsor_free baseSubmitEnv hookState0 commitA fileA 50
      ⟨true⟩ rfl rfl).2.2.2 99⟩

end Shelby

namespace Shelby

/-- C1: on the sponsored (non-native) path, a completed submission's trace
is exactly the seven-step sequence: one payload build, one sponsor
construction, exactly one raw-transaction build, the detached sender
signature over that raw transaction, the fee-payer signature over the very
same raw transaction with no rebuild between the two, and exactly one
submit carrying that transaction together with both authenticators,
followed by the finality wait. -/
theorem sponsored_path_single_build (env : SubmitEnv) (st : HookState)
    (c : BlobCommitments) (f : FileT) (exp : Int) (w : Wallet) (h : Hash)
    (hw : env.wallet = some w) (hn : w.isAptosNativeWallet = false)
    (hok : (submitFileToChain env st c f exp).result = Except.ok h) :
    ∃ a payload meta senderAuth, env.account = some a ∧
      (submitFileToChain env st c f exp).events =
        [Ev.createPayload payload,
         Ev.sponsorConstructed (accountFromPrivateKey env.sponsorPrivateKey),
         Ev.buildRaw a payload true,
         Ev.signDetached ⟨a, payload, true, meta⟩,
         Ev.feePayerSign ⟨a, payload, true, meta⟩
           (accountFromPrivateKey env.sponsorPrivateKey),
         Ev.submitSimple ⟨a, payload, true, meta⟩ senderAuth
           (signAsFeePayer (accountFromPrivateKey env.sponsorPrivateKey)
             ⟨a, payload, true, meta⟩),
         Ev.waitForTransaction h] ∧
      (submitFileToChain env st c f exp).events.countP
        (fun ev => match ev with | Ev.buildRaw _ _ _ => true | _ => false) = 1 ∧
      (submitFileToChain env st c f exp).events.countP
        (fun ev => match ev with | Ev.submitSimple _ _ _ => true | _ => false) = 1 := by
  obtain ⟨acc, wal, spk, etc, now, sas, wft, bsm, sgt, sbs⟩ := env
  simp only at hw hok ⊢
  subst hw
  cases acc with
  | none => simp [submitFileToChain] at hok
  | some a =>
    cases hp : createRegisterBlobPayload now a f.name c.blob_merkle_root
        (etc c.raw_data_size) exp c.raw_data_size with
    | error e => simp [submitFileToChain, hp] at hok
    | ok payload =>
      cases hb : bsm with
      | error e => simp [submitFileToChain, hp, hn, hb] at hok
      | ok meta =>
        cases hsg : sgt ⟨a, payload, true, meta⟩ with
        | error e => simp [submitFileToChain, hp, hn, hb, hsg] at hok
        | ok senderAuth =>
          cases hsb : sbs ⟨a, payload, true, meta⟩ senderAuth
              (signAsFeePayer (accountFromPrivateKey spk)
                ⟨a, payload, true, meta⟩) with
          | error e => simp [submitFileToChain, hp, hn, hb, hsg, hsb] at hok
          | ok h2 =>
            cases hwt : wft h2 with
            | error e => simp [submitFileToChain, hp, hn, hb, hsg, hsb, hwt] at hok
            | ok u =>
              have hh : h2 = h := by
                simpa [submitFileToChain, hp, hn, hb, hsg, hsb, hwt] using hok
              subst hh
              refine ⟨a, payload, meta, senderAuth, rfl, ?_, ?_, ?_⟩
              · simp [submitFileToChain, hp, hn, hb, hsg, hsb, hwt]
              · simp [submitFileToChain, hp, hn, hb, hsg, hsb, hwt, List.countP_cons]
              · simp [submitFileToChain, hp, hn, hb, hsg, hsb, hwt, List.countP_cons]

/-- Witness for C1: a fully successful sponsored run of the concrete
environment, yielding the seven-step trace. -/
theorem sponsored_path_single_build_witness :
    ∃ a payload meta senderAuth, envSponsored.account = some a ∧
      (submitFileToChain envSponsored hookState0 commitA fileA 50).events =
        [Ev.createPayload payload,
         Ev.sponsorConstructed (accountFromPrivateKey envSponsored.sponsorPrivateKey),
         Ev.buildRaw a payload true,
         Ev.signDetached ⟨a, payload, true, meta⟩,
         Ev.feePayerSign ⟨a, payload, true, meta⟩
           (accountFromPrivateKey envSponsored.sponsorPrivateKey),
         Ev.submitSimple ⟨a, payload, true, meta⟩ senderAuth
           (signAsFeePayer (accountFromPrivateKey envSponsored.sponsorPrivateKey)
             ⟨a, payload, true, meta⟩),
         Ev.waitForTransaction "h2"] ∧
      (submitFileToChain envSponsored hookState0 commitA fileA 50).events.countP
        (fun ev => match ev with | Ev.buildRaw _ _ _ => true | _ => false) = 1 ∧
      (submitFileToChain envSponsored hookState0 commitA fileA 50).events.countP
        (fun ev => match ev with | Ev.submitSimple _ _ _ => true | _ => false) = 1 :=
  sponsored_path_single_build envSponsored hookState0 commitA fileA 50
    ⟨false⟩ "h2" rfl rfl rfl

/-- C7: any invocation of the registration payload building step with a
negative raw size, an empty blob name, or an expiration instant not after
now fails with a validation error — the builder is pure, so this happens
with no side effects — and a submission flow hitting such arguments makes
no external call at all (empty event trace) and surfaces the error. -/
theorem payload_builder_validates (nowM : Int) (name : String)
    (exp size : Int)
    (hbad : size < 0 ∨ name = "" ∨ exp ≤ nowM) :
    (∃ e, ∀ (a' : Address) (root' ncs' : Nat),
      createRegisterBlobPayload nowM a' name root' ncs' exp size =
        Except.error e) ∧
    (∀ (env : SubmitEnv) (st : HookState) (c : BlobCommitments) (f : FileT),
      env.nowMicros = nowM → c.raw_data_size = size → f.name = name →
      (submitFileToChain env st c f exp).events = [] ∧
      ∃ e, (submitFileToChain env st c f exp).result = Except.error e) := by
  have herrg : ∃ e, ∀ (a' : Address) (root' ncs' : Nat),
      createRegisterBlobPayload nowM a' name root' ncs' exp size =
        Except.error e := by
    unfold createRegisterBlobPayload
    by_cases h1 : size < 0
    · exact ⟨"validation: negative size", fun _ _ _ => by rw [if_pos h1]⟩
    · by_cases h2 : name = ""
      · exact ⟨"validation: empty name", fun _ _ _ => by rw [if_neg h1, if_pos h2]⟩
      · have h3 : exp ≤ nowM := by
          rcases hbad with h | h | h
          · exact absurd h h1
          · exact absurd h h2
          · exact h
        exact ⟨"validation: expiration not after now",
          fun _ _ _ => by rw [if_neg h1, if_neg h2, if_pos h3]⟩
  refine ⟨herrg, ?_⟩
  obtain ⟨e, he⟩ := herrg
  intro env st c f hnow hsize hname
  cases ha : env.account with
  | none => constructor <;> simp [submitFileToChain, ha]
  | some a' =>
    cases hwv : env.wallet with
    | none => constructor <;> simp [submitFileToChain, ha, hwv]
    | some w =>
      have hp := he a' c.blob_merkle_root (env.expectedTotalChunksets c.raw_data_size)
      rw [← hnow, ← hsize, ← hname] at hp
      constructor <;> simp [submitFileToChain, ha, hwv, hp]

/-- Witness for C7 at a concrete invalid argument (raw size −1): the flow
makes no external call. -/
theorem payload_builder_validates_witness :
    (submitFileToChain baseSubmitEnv hookState0 ⟨5, -1⟩ fileA 50).events = [] :=
  ((payload_builder_validates 0 "x.jpg" 50 (-1) (Or.inl (by decide))).2
    baseSubmitEnv hookState0 ⟨5, -1⟩ fileA rfl rfl rfl).1

end Shelby

namespace Shelby

/-- Inversion of an `uploadFile` run that reached the chain submission
step: the expiration argument is `Date.now() * 1000 + duration`, and the
run ends in one of the three post-encode shapes — chain failure (alert, no
upload), upload failure after chain success, or full success (upload, then
success dialog, then refresh). -/
theorem uploadFile_inversion (env : UploadEnv) (st : UploadState) (hst : HookState)
    (c : BlobCommitments) (f : FileT) (exp : Int)
    (hcall : Ev.chainSubmitCall c f exp ∈ (uploadFile env st hst).events) :
    exp = msToMicros env.nowMs + env.duration ∧
    ((∃ e, (submitFileToChain env.sub hst c f exp).result = Except.error e ∧
        (uploadFile env st hst).events =
          [Ev.encodeCall f (redundancyConfigFor env.redundancyLevel).erasure_n
              (redundancyConfigFor env.redundancyLevel).erasure_k
              (redundancyConfigFor env.redundancyLevel).erasure_d,
            Ev.chainSubmitCall c f exp] ++
            (submitFileToChain env.sub hst c f exp).events ++
            [Ev.alertShown ("Upload failed: " ++ e)] ∧
        (uploadFile env st hst).state = { st with isUploading := false }) ∨
      (∃ h, (submitFileToChain env.sub hst c f exp).result = Except.ok h ∧
        ((∃ e, env.uploadFileToRcp f = Except.error e ∧
            (uploadFile env st hst).events =
              [Ev.encodeCall f (redundancyConfigFor env.redundancyLevel).erasure_n
                  (redundancyConfigFor env.redundancyLevel).erasure_k
                  (redundancyConfigFor env.redundancyLevel).erasure_d,
                Ev.chainSubmitCall c f exp] ++
                (submitFileToChain env.sub hst c f exp).events ++
                [Ev.rcpUpload f, Ev.alertShown ("Upload failed: " ++ e)] ∧
            (uploadFile env st hst).state = { st with isUploading := false }) ∨
          (env.uploadFileToRcp f = Except.ok () ∧
            (uploadFile env st hst).events =
              [Ev.encodeCall f (redundancyConfigFor env.redundancyLevel).erasure_n
                  (redundancyConfigFor env.redundancyLevel).erasure_k
                  (redundancyConfigFor env.redundancyLevel).erasure_d,
                Ev.chainSubmitCall c f exp] ++
                (submitFileToChain env.sub hst c f exp).events ++
                [Ev.rcpUpload f, Ev.successShown h f.name, Ev.refreshTriggered] ∧
            (uploadFile env st hst).state = ⟨false, true, h, f.name⟩)))) := by
  obtain ⟨sel, loc, date, id, dur, rl, nowMs, enc, rcp, sub⟩ := env
  simp only at hcall ⊢
  cases sel with
  | none => simp [uploadFile] at hcall
  | some selFile =>
    cases hacc : sub.account with
    | none => simp [uploadFile, hacc] at hcall
    | some a =>
      cases hwal : sub.wallet with
      | none => simp [uploadFile, hacc, hwal] at hcall
      | some w =>
        cases hform : isFormValid loc date id with
        | false => simp [uploadFile, hacc, hwal, hform] at hcall
        | true =>
          cases henc : enc ⟨generateFileName loc date id selFile.name, selFile.content⟩
              (redundancyConfigFor rl).erasure_n (redundancyConfigFor rl).erasure_k
              (redundancyConfigFor rl).erasure_d with
          | error e => simp [uploadFile, hacc, hwal, hform, henc] at hcall
          | ok commitments =>
            have hns := submit_events_not_sequencer sub hst commitments
              ⟨generateFileName loc date id selFile.name, selFile.content⟩
              (msToMicros nowMs + dur)
            cases hres : (submitFileToChain sub hst commitments
                ⟨generateFileName loc date id selFile.name, selFile.content⟩
                (msToMicros nowMs + dur)).result with
            | error e =>
              simp [uploadFile, hacc, hwal, hform, henc, hres] at hcall
              rcases hcall with ⟨rfl, rfl, rfl⟩ | hmem
              · refine ⟨rfl, Or.inl ⟨e, hres, ?_, ?_⟩⟩ <;>
                  simp [uploadFile, hacc, hwal, hform, henc, hres]
              · have hq := hns _ hmem
                simp [sequencerEvent] at hq
            | ok h =>
              cases hrcp : rcp ⟨generateFileName loc date id selFile.name,
                  selFile.content⟩ with
              | error e =>
                simp [uploadFile, hacc, hwal, hform, henc, hres, hrcp] at hcall
                rcases hcall with ⟨rfl, rfl, rfl⟩ | hmem
                · refine ⟨rfl, Or.inr ⟨h, hres, Or.inl ⟨e, hrcp, ?_, ?_⟩⟩⟩ <;>
                    simp [uploadFile, hacc, hwal, hform, henc, hres, hrcp]
                · have hq := hns _ hmem
                  simp [sequencerEvent] at hq
              | ok u =>
                cases u
                simp [uploadFile, hacc, hwal, hform, henc, hres, hrcp] at hcall
                rcases hcall with ⟨rfl, rfl, rfl⟩ | hmem
                · refine ⟨rfl, Or.inr ⟨h, hres, Or.inr ⟨hrcp, ?_, ?_⟩⟩⟩ <;>
                    simp [uploadFile, hacc, hwal, hform, henc, hres, hrcp]
                · have hq := hns _ hmem
                  simp [sequencerEvent] at hq

end Shelby

namespace Shelby

/-- C2: in an upload-sequencer run that reached the chain submission step,
if the chain submission fails the storage upload is never invoked, no
success is shown, and the success-dialog state is untouched; conversely the
success dialog is reached only when both the chain submission and the
storage upload succeeded, with the upload and the listing refresh in the
trace. -/
theorem no_orphan_upload_success_after_both (env : UploadEnv) (st : UploadState)
    (hst : HookState) (c : BlobCommitments) (f : FileT) (exp : Int)
    (hcall : Ev.chainSubmitCall c f exp ∈ (uploadFile env st hst).events) :
    (∀ e, (submitFileToChain env.sub hst c f exp).result = Except.error e →
      (∀ g, Ev.rcpUpload g ∉ (uploadFile env st hst).events) ∧
      (∀ h n, Ev.successShown h n ∉ (uploadFile env st hst).events) ∧
      (uploadFile env st hst).state.showSuccessDialog = st.showSuccessDialog) ∧
    ((uploadFile env st hst).state.showSuccessDialog = true →
      st.showSuccessDialog = true ∨
      ∃ h, (submitFileToChain env.sub hst c f exp).result = Except.ok h ∧
        env.uploadFileToRcp f = Except.ok () ∧
        Ev.rcpUpload f ∈ (uploadFile env st hst).events ∧
        Ev.refreshTriggered ∈ (uploadFile env st hst).events) := by
  have hnsub : ∀ g : FileT,
      Ev.rcpUpload g ∉ (submitFileToChain env.sub hst c f exp).events := by
    intro g hg
    have hq := submit_events_not_sequencer env.sub hst c f exp _ hg
    simp [sequencerEvent] at hq
  have hnsub2 : ∀ (h : Hash) (n : String),
      Ev.successShown h n ∉ (submitFileToChain env.sub hst c f exp).events := by
    intro h n hg
    have hq := submit_events_not_sequencer env.sub hst c f exp _ hg
    simp [sequencerEvent] at hq
  obtain ⟨-, hinv⟩ := uploadFile_inversion env st hst c f exp hcall
  constructor
  · intro e he
    rcases hinv with ⟨e', he', hev, hstate⟩ | ⟨h, hok, hrest⟩
    · refine ⟨?_, ?_, ?_⟩
      · intro g hg
        rw [hev] at hg
        simp [hnsub g] at hg
      · intro h n hg
        rw [hev] at hg
        simp [hnsub2 h n] at hg
      · rw [hstate]
    · rw [he] at hok
      exact Except.noConfusion hok
  · intro hdialog
    rcases hinv with ⟨e', he', hev, hstate⟩ | ⟨h, hok, hrest⟩
    · left
      rw [hstate] at hdialog
      exact hdialog
    · rcases hrest with ⟨e, he2, hev, hstate⟩ | ⟨hrcp, hev, hstate⟩
      · left
        rw [hstate] at hdialog
        exact hdialog
      · right
        refine ⟨h, hok, hrcp, ?_, ?_⟩ <;> rw [hev] <;> simp

/-- The event trace of the concrete failing run, by evaluation. -/
theorem uploadEnvFail_events :
    (uploadFile uploadEnvFail uploadState0 hookState0).events =
      [Ev.encodeCall fileRenamed 16 10 13,
       Ev.chainSubmitCall commitA fileRenamed 1100,
       Ev.createPayload ⟨"alice", "a_b_c.jpg", 5, 1, 1100, 10⟩,
       Ev.signAndSubmit ⟨"alice", "a_b_c.jpg", 5, 1, 1100, 10⟩,
       Ev.alertShown "Upload failed: boom"] := rfl

/-- The concrete failing run reaches the chain submission step. -/
theorem uploadEnvFail_chainCall_mem :
    Ev.chainSubmitCall commitA fileRenamed 1100 ∈
      (uploadFile uploadEnvFail uploadState0 hookState0).events := by
  rw [uploadEnvFail_events]
  simp

/-- Witness for C2 at a concrete failing chain submission ("boom"): the
storage upload never happens and the success dialog stays hidden. -/
theorem no_orphan_upload_success_after_both_witness :
    Ev.rcpUpload fileRenamed ∉
      (uploadFile uploadEnvFail uploadState0 hookState0).events ∧
    (uploadFile uploadEnvFail uploadState0 hookState0).state.showSuccessDialog =
      false :=
  ⟨((no_orphan_upload_success_after_both uploadEnvFail uploadState0 hookState0
      commitA fileRenamed 1100 uploadEnvFail_chainCall_mem).1 "boom" rfl).1 fileRenamed,
    ((no_orphan_upload_success_after_both uploadEnvFail uploadState0 hookState0
      commitA fileRenamed 1100 uploadEnvFail_chainCall_mem).1 "boom" rfl).2.2⟩

/-- C8: the expiration instant handed to the submitter equals the current
wall-clock time in milliseconds converted to microseconds plus the chosen
duration in microseconds, and the classifier's comparison against now uses
the very same millisecond-to-microsecond conversion. -/
theorem expiration_micros_consistent (env : UploadEnv) (st : UploadState)
    (hst : HookState) (c : BlobCommitments) (f : FileT) (exp : Int)
    (hcall : Ev.chainSubmitCall c f exp ∈ (uploadFile env st hst).events) :
    exp = msToMicros env.nowMs + env.duration ∧
    (∀ nowMs e : Int, isExpired nowMs e = decide (msToMicros nowMs > e)) :=
  ⟨(uploadFile_inversion env st hst c f exp hcall).1, fun _ _ => rfl⟩

/-- Witness for C8: the concrete run passes expiration 1100 = 1 ms · 1000 +
100 µs, and the classifier at `Date.now() = 3 ms` compares 3000 µs. -/
theorem expiration_micros_consistent_witness :
    (1100 : Int) = msToMicros uploadEnvFail.nowMs + uploadEnvFail.duration ∧
    isExpired 3 42 = decide (msToMicros 3 > 42) :=
  ⟨(expiration_micros_consistent uploadEnvFail uploadState0 hookState0 commitA
      fileRenamed 1100 uploadEnvFail_chainCall_mem).1,
    (expiration_micros_consistent uploadEnvFail uploadState0 hookState0 commitA
      fileRenamed 1100 uploadEnvFail_chainCall_mem).2 3 42⟩

end Shelby
